import Mathlib

/-!
# Verification of the SyntaxBridge regex-based Objective-C summarizer

Shallow embedding of `src/tools/objc-summarizer-v2.py` (the pattern-based
structural scanner): line classification (methods, properties, block
openers/closers), block extent computation, containment resolution,
outline rendering, and the symbol-map builder, together with theorems
settling the frozen specification claims.

Python regular expressions used by the script are compiled by hand into
deterministic character-list scanners that reproduce the backtracking
semantics of each concrete pattern.
-/

namespace SyntaxBridge

/-- Python whitespace characters recognized by `\s`, `str.strip()` and
`str.split()` for the ASCII inputs this tool processes. -/
def pyWs (c : Char) : Bool :=
  c = ' ' || c = '\t' || c = '\n' || c = '\r' || c = '\x0b' || c = '\x0c'

/-- Word characters matched by `\w` (ASCII range). -/
def isWord (c : Char) : Bool :=
  c.isAlphanum || c = '_'

/-- Remove trailing Python whitespace. -/
def pyStripRight (cs : List Char) : List Char :=
  (cs.reverse.dropWhile pyWs).reverse

/-- Python `str.strip()` on a character list. -/
def pyStripL (cs : List Char) : List Char :=
  pyStripRight (cs.dropWhile pyWs)

/-- `String.mk` shorthand. -/
def strOf (cs : List Char) : String :=
  String.mk cs

/-- Python `content.split('\n')`: split on newline, keeping empty pieces. -/
def splitNl : List Char → List (List Char)
  | [] => [[]]
  | c :: rest =>
    if c = '\n' then [] :: splitNl rest
    else
      match splitNl rest with
      | [] => [[c]]
      | l :: ls => (c :: l) :: ls

/-- The lines of the file content, as character lists. -/
def linesL (content : String) : List (List Char) :=
  splitNl content.toList

/-- Result of the method-signature pattern
`^[\s]*([+-])\s*\(([^)]+)\)\s*([^{;]+?)(?:\s*\x7b|\s*;)` applied with
`re.match` to one raw source line.  The captured groups are returned
already `.strip()`-ped exactly as the script stores them. -/
def matchMethod (cs : List Char) : Option (String × String × String) :=
  match cs.dropWhile pyWs with
  | c :: r1 =>
    if c = '+' || c = '-' then
      match r1.dropWhile pyWs with
      | '(' :: r3 =>
        let rt := r3.takeWhile (fun ch => ch ≠ ')')
        if rt.isEmpty then none
        else if (r3.drop rt.length).isEmpty then none
        else
          let r4 := r3.drop (rt.length + 1)
          match r4.findIdx? (fun ch => ch = '\x7b' || ch = ';') with
          | some t =>
            if 1 ≤ t then
              some (String.singleton c, strOf (pyStripL rt), strOf (pyStripL (r4.take t)))
            else none
          | none => none
      | _ => none
    else none
  | [] => none

/-- A recognized method signature hit. -/
structure Method where
  sigil : String
  rtype : String
  sig : String
  line : Nat
deriving DecidableEq, Repr

/-- One step of `extract_methods_from_source`: the comment/directive skip
followed by the method pattern, on the line with 1-based number `n`. -/
def methodOfLine (n : Nat) (cs : List Char) : Option Method :=
  let stripped := pyStripL cs
  if "//".toList.isPrefixOf stripped || "#".toList.isPrefixOf stripped then none
  else
    match matchMethod cs with
    | some (sg, rt, si) => some ⟨sg, rt, si, n⟩
    | none => none

/-- `extract_methods_from_source(content)`. -/
def extract_methods (content : String) : List Method :=
  (linesL content).enum.filterMap fun p => methodOfLine (p.1 + 1) p.2

/-- A recognized `@property` declaration hit. -/
structure PropertyDecl where
  attrs : String
  decl : String
  line : Nat
deriving DecidableEq, Repr

/-- Result of the property pattern
`^\s*@property\s*(\([^)]*\))?\s*([^;]+);` applied with `re.match` to one
line: the raw attribute group (with its parentheses, or empty when the
group is absent) and the `.strip()`-ped declaration clause. -/
def matchProperty (cs : List Char) : Option (String × String) :=
  let r0 := cs.dropWhile pyWs
  if "@property".toList.isPrefixOf r0 then
    let r := r0.drop 9
    let a := (r.takeWhile pyWs).length
    let r1 := r.drop a
    let withAttrs : Option (String × String) :=
      match r1 with
      | '(' :: r3 =>
        match r3.findIdx? (fun ch => ch = ')') with
        | some k =>
          let g1 := r1.take (k + 2)
          let s := r1.drop (k + 2)
          let b := (s.takeWhile pyWs).length
          let s1 := s.drop b
          match s1.findIdx? (fun ch => ch = ';') with
          | some t =>
            if 1 ≤ t then some (strOf g1, strOf (pyStripL (s1.take t)))
            else if 1 ≤ b then some (strOf g1, "")
            else none
          | none => none
        | none => none
      | _ => none
    match withAttrs with
    | some res => some res
    | none =>
      match r1.findIdx? (fun ch => ch = ';') with
      | some t =>
        if 1 ≤ t then some ("", strOf (pyStripL (r1.take t)))
        else if 1 ≤ a then some ("", "")
        else none
      | none => none
  else none

/-- One step of `extract_properties_from_source` on line number `n`. -/
def propertyOfLine (n : Nat) (cs : List Char) : Option PropertyDecl :=
  match matchProperty cs with
  | some (at_, de) => some ⟨at_, de, n⟩
  | none => none

/-- `extract_properties_from_source(content)`. -/
def extract_properties (content : String) : List PropertyDecl :=
  (linesL content).enum.filterMap fun p => propertyOfLine (p.1 + 1) p.2

/-- Attempt of the interface pattern
`@interface\s+(\w+)(?:\s*:\s*(\w+))?(?:\s*<([^>]+)>)?` at the start of
`cs`: class name, optional supertype capture, optional protocol-list
capture.  The two trailing groups are optional and never make the whole
match fail. -/
def parseInterfaceAt (cs : List Char) :
    Option (List Char × Option (List Char) × Option (List Char)) :=
  if "@interface".toList.isPrefixOf cs then
    let r := cs.drop 10
    let w := (r.takeWhile pyWs).length
    if w = 0 then none
    else
      let r1 := r.drop w
      let name := r1.takeWhile isWord
      if name.isEmpty then none
      else
        let r2 := r1.drop name.length
        let afterSup : Option (List Char) × List Char :=
          match r2.dropWhile pyWs with
          | ':' :: r4a =>
            let r4 := r4a.dropWhile pyWs
            let st := r4.takeWhile isWord
            if st.isEmpty then (none, r2) else (some st, r4.drop st.length)
          | _ => (none, r2)
        let protos : Option (List Char) :=
          match afterSup.2.dropWhile pyWs with
          | '<' :: r7 =>
            let body := r7.takeWhile (fun ch => ch ≠ '>')
            if body.isEmpty then none
            else if (r7.drop body.length).isEmpty then none
            else some body
          | _ => none
        some (name, afterSup.1, protos)
  else none

/-- `re.search` with the interface pattern: earliest matching position. -/
def searchInterface : List Char → Option (List Char × Option (List Char) × Option (List Char))
  | [] => none
  | c :: rest =>
    match parseInterfaceAt (c :: rest) with
    | some r => some r
    | none => searchInterface rest

/-- Attempt of `kw` followed by `\s+(\w+)` at the start of `cs`; returns
the captured name and the number of characters consumed. -/
def parseKwNameAt (kw : List Char) (cs : List Char) : Option (List Char × Nat) :=
  if kw.isPrefixOf cs then
    let r := cs.drop kw.length
    let w := (r.takeWhile pyWs).length
    if w = 0 then none
    else
      let name := (r.drop w).takeWhile isWord
      if name.isEmpty then none
      else some (name, kw.length + w + name.length)
  else none

/-- `re.search` with `@implementation\s+(\w+)`. -/
def searchImpl : List Char → Option (List Char)
  | [] => none
  | c :: rest =>
    match parseKwNameAt ("@implementation".toList) (c :: rest) with
    | some r => some r.1
    | none => searchImpl rest

/-- `re.search` with `@protocol\s+(\w+)`. -/
def searchProtocol : List Char → Option (List Char)
  | [] => none
  | c :: rest =>
    match parseKwNameAt ("@protocol".toList) (c :: rest) with
    | some r => some r.1
    | none => searchProtocol rest

/-- Attempt of the category pattern
`@(?:interface|implementation)\s+(\w+)\s*\(([^)]*)\)` at the start of
`cs`: class name and (possibly empty) category-name capture. -/
def parseCategoryAt (cs : List Char) : Option (List Char × List Char) :=
  let afterKw : Option Nat :=
    if "@interface".toList.isPrefixOf cs then some 10
    else if "@implementation".toList.isPrefixOf cs then some 15
    else none
  match afterKw with
  | none => none
  | some k =>
    let r := cs.drop k
    let w := (r.takeWhile pyWs).length
    if w = 0 then none
    else
      let name := (r.drop w).takeWhile isWord
      if name.isEmpty then none
      else
        match ((r.drop w).drop name.length).dropWhile pyWs with
        | '(' :: r3 =>
          let body := r3.takeWhile (fun ch => ch ≠ ')')
          if (r3.drop body.length).isEmpty then none else some (name, body)
        | _ => none

/-- `re.search` with the category pattern. -/
def searchCategory : List Char → Option (List Char × List Char)
  | [] => none
  | c :: rest =>
    match parseCategoryAt (c :: rest) with
    | some r => some r
    | none => searchCategory rest

/-- `next_end_line` computation: scan lines after index `i` for the first
one whose stripped form is the bare closer `@end`; its 1-based number, or
the opener's own line number `i + 1` when none exists. -/
def findEnd (ls : List (List Char)) (i : Nat) : Nat :=
  match (ls.drop (i + 1)).findIdx? (fun l => pyStripL l = "@end".toList) with
  | some k => i + 1 + k + 1
  | none => i + 1

/-- `[m for m in methods if line_num < m['line'] < next_end_line]`. -/
def methodsIn (ms : List Method) (a b : Nat) : List Method :=
  ms.filter fun m => a < m.line && m.line < b

/-- `[p for p in properties if line_num < p['line'] < next_end_line]`. -/
def propsIn (ps : List PropertyDecl) (a b : Nat) : List PropertyDecl :=
  ps.filter fun p => a < p.line && p.line < b

/-- The two outline lines printed for one contained property. -/
def renderProp (p : PropertyDecl) : List String :=
  ["  // Line: " ++ toString p.line,
   "  @property " ++ p.attrs ++ p.decl ++ ";"]

/-- The two outline lines printed for one contained method. -/
def renderMethod (m : Method) : List String :=
  ["  // Line: " ++ toString m.line,
   "  " ++ m.sigil ++ " (" ++ m.rtype ++ ")" ++ m.sig ++ ";"]

/-- One rendered block section of the outline: its line-number comment
value, reconstructed header line, and member lines. -/
structure OutSection where
  line : Nat
  header : String
  members : List String
deriving DecidableEq, Repr

/-- The outline lines a section contributes: line comment, header,
members, closer, blank separator. -/
def sectionLines (s : OutSection) : List String :=
  ["// Line: " ++ toString s.line, s.header] ++ s.members ++ ["@end", ""]

/-- Reconstructed interface header: defaulted supertype, optional
protocol list. -/
def interfaceHeader (name : List Char) (sup : Option (List Char))
    (protos : Option (List Char)) : String :=
  "@interface " ++ strOf name ++ " : " ++
    (match sup with | some s => strOf s | none => "NSObject") ++
    (match protos with | some p => " <" ++ strOf p ++ ">" | none => "")

/-- Category header; an empty capture falls back to `(anonymous)`. -/
def categoryHeader (name cat : List Char) : String :=
  "@interface " ++ strOf name ++ " (Category: " ++
    (if cat.isEmpty then "(anonymous)" else strOf cat) ++ ")"

/-- The per-line dispatch of `summarize_objc_file`'s main loop: the
interface, implementation, category and protocol checks in source order
(each ending in `continue`), producing the block section emitted for the
line at 0-based index `i`, if any. -/
def outlineSecOf (ms : List Method) (ps : List PropertyDecl)
    (ls : List (List Char)) (i : Nat) (line : List Char) : Option OutSection :=
  let stripped := pyStripL line
  match searchInterface stripped with
  | some (name, sup, protos) =>
    let e := findEnd ls i
    some ⟨i + 1, interfaceHeader name sup protos,
      (propsIn ps (i + 1) e).flatMap renderProp ++
      (methodsIn ms (i + 1) e).flatMap renderMethod⟩
  | none =>
    match searchImpl stripped with
    | some name =>
      let e := findEnd ls i
      some ⟨i + 1, "@implementation " ++ strOf name,
        (methodsIn ms (i + 1) e).flatMap renderMethod⟩
    | none =>
      match searchCategory stripped with
      | some (name, cat) => some ⟨i + 1, categoryHeader name cat, []⟩
      | none =>
        match searchProtocol stripped with
        | some name => some ⟨i + 1, "@protocol " ++ strOf name, []⟩
        | none => none

/-- All block sections of the outline, in source order. -/
def sectionsOf (content : String) : List OutSection :=
  let ls := linesL content
  let ms := extract_methods content
  let ps := extract_properties content
  ls.enum.filterMap fun p => outlineSecOf ms ps ls p.1 p.2

/-- The outline body: every line printed after the four header lines. -/
def outlineBody (content : String) : List String :=
  (sectionsOf content).flatMap sectionLines

/-- A record of the symbol map: name, kind, 1-based line. -/
structure Symbol where
  name : String
  type : String
  line : Nat
deriving DecidableEq, Repr

/-- 1-based line number of character position `pos` in the file:
`content[:pos].count('\n') + 1`. -/
def lineOf (cs : List Char) (pos : Nat) : Nat :=
  (cs.take pos).countP (fun c => c = '\n') + 1

/-- `re.finditer` scan for `kw` followed by `\s+(\w+)`: non-overlapping
matches found left to right, resuming after each match's end; every match
is reported with its start position and captured name.  The fuel argument
is the number of characters still scannable. -/
def finditerKWAux (kw : List Char) : Nat → List Char → Nat → List (Nat × List Char)
  | 0, _, _ => []
  | _, [], _ => []
  | fuel + 1, c :: rest, pos =>
    match parseKwNameAt kw (c :: rest) with
    | some (name, len) => (pos, name) :: finditerKWAux kw fuel ((c :: rest).drop len) (pos + len)
    | none => finditerKWAux kw fuel rest (pos + 1)

/-- All `kw`-declaration matches of the file with their start positions. -/
def finditerKW (kw : List Char) (cs : List Char) : List (Nat × List Char) :=
  finditerKWAux kw cs.length cs 0

/-- Stable insertion of a symbol into a list sorted by line. -/
def insertByLine (x : Symbol) : List Symbol → List Symbol
  | [] => [x]
  | y :: ys => if y.line < x.line then y :: insertByLine x ys else x :: y :: ys

/-- Stable sort by ascending line number, as `symbols.sort(key=lambda x:
x['line'])` performs on the accumulated list. -/
def sortByLine : List Symbol → List Symbol
  | [] => []
  | x :: xs => insertByLine x (sortByLine xs)

/-- The `--map` symbol list for existing-file content: interface,
implementation and protocol declaration scans over the raw text, then the
method hits, stably sorted by line. -/
def mapSymbols (content : String) : List Symbol :=
  let cs := content.toList
  let inter := (finditerKW ("@interface".toList) cs).map fun pn =>
    (⟨strOf pn.2, "interface", lineOf cs pn.1⟩ : Symbol)
  let impl := (finditerKW ("@implementation".toList) cs).map fun pn =>
    (⟨strOf pn.2, "implementation", lineOf cs pn.1⟩ : Symbol)
  let protos := (finditerKW ("@protocol".toList) cs).map fun pn =>
    (⟨strOf pn.2, "protocol", lineOf cs pn.1⟩ : Symbol)
  let meths := (extract_methods content).map fun m =>
    (⟨m.sigil ++ m.sig, "method", m.line⟩ : Symbol)
  sortByLine (inter ++ impl ++ protos ++ meths)

/-- An extracted instance-variable record. -/
structure Ivar where
  ty : String
  nm : String
deriving DecidableEq, Repr

/-- Attempt of `@(?:interface|implementation)[^\x7b]*\x7b([^\x7d]*)\x7d`
at the start of `cs`: the brace-delimited body and the total match
length. -/
def ivarBodyAt (cs : List Char) : Option (List Char × Nat) :=
  let afterKw : Option Nat :=
    if "@interface".toList.isPrefixOf cs then some 10
    else if "@implementation".toList.isPrefixOf cs then some 15
    else none
  match afterKw with
  | none => none
  | some k =>
    let r := cs.drop k
    let pre := r.takeWhile (fun ch => ch ≠ '\x7b')
    if (r.drop pre.length).isEmpty then none
    else
      let r2 := r.drop (pre.length + 1)
      let body := r2.takeWhile (fun ch => ch ≠ '\x7d')
      if (r2.drop body.length).isEmpty then none
      else some (body, k + pre.length + 1 + body.length + 1)

/-- `re.finditer` with the ivar-block pattern: the captured bodies. -/
def ivarBlocksAux : Nat → List Char → List (List Char)
  | 0, _ => []
  | _, [] => []
  | fuel + 1, c :: rest =>
    match ivarBodyAt (c :: rest) with
    | some (body, len) => body :: ivarBlocksAux fuel ((c :: rest).drop len)
    | none => ivarBlocksAux fuel rest

/-- Result of the ivar pattern `^\s*(\w+\s*\*?)\s+(\w+)\s*;` applied
with `re.match` to a stripped body line: the `.strip()`-ped type text and
the variable name. -/
def matchIvar (cs : List Char) : Option (String × String) :=
  let r := cs.dropWhile pyWs
  let w := r.takeWhile isWord
  if w.isEmpty then none
  else
    let r1 := r.drop w.length
    let s := r1.takeWhile pyWs
    let afterS := r1.drop s.length
    let tail (g1 : List Char) (rest : List Char) : Option (String × String) :=
      let t := rest.takeWhile pyWs
      if t.isEmpty then none
      else
        let r2 := rest.drop t.length
        let nm := r2.takeWhile isWord
        if nm.isEmpty then none
        else
          match (r2.drop nm.length).dropWhile pyWs with
          | ';' :: _ => some (strOf (pyStripL g1), strOf nm)
          | _ => none
    let plain : Option (String × String) :=
      if s.isEmpty then none
      else
        let nm := afterS.takeWhile isWord
        if nm.isEmpty then none
        else
          match (afterS.drop nm.length).dropWhile pyWs with
          | ';' :: _ => some (strOf w, strOf nm)
          | _ => none
    match afterS with
    | '*' :: rest =>
      match tail (w ++ s ++ ['*']) rest with
      | some res => some res
      | none => plain
    | _ => plain

/-- `extract_ivars_from_implementation(content)`: defined by the script
but never invoked by either output path. -/
def extract_ivars (content : String) : List Ivar :=
  (ivarBlocksAux content.length content.toList).flatMap fun body =>
    (splitNl body).filterMap fun l =>
      let stripped := pyStripL l
      if stripped.isEmpty ∨ "//".toList.isPrefixOf stripped ∨
          "/*".toList.isPrefixOf stripped then none
      else
        match matchIvar stripped with
        | some tn => some (⟨tn.1, tn.2⟩ : Ivar)
        | none => none

/-- The fixed outline header emitted before any classification. -/
def outlineHeaderLines (path : String) : List String :=
  ["// SyntaxBridge Summary",
   "// File: " ++ path,
   "// ─────────────────────────────────────────",
   ""]

/-- Join printed lines into the produced standard-output text. -/
def joinLines (ls : List String) : String :=
  String.join (ls.map fun l => l ++ "\n")

/-- Minimal-ASCII JSON string escaping as `json.dumps` performs with its
default `ensure_ascii=True`: named escapes, `\u` form for other
characters outside `0x20`–`0x7e`, surrogate pairs beyond the BMP. -/
def hexDigit (n : Nat) : Char :=
  if n < 10 then Char.ofNat (48 + n) else Char.ofNat (87 + (n - 10))

/-- Four-digit lowercase hex rendering of `n < 0x10000`. -/
def hex4 (n : Nat) : String :=
  strOf [hexDigit (n / 4096 % 16), hexDigit (n / 256 % 16),
         hexDigit (n / 16 % 16), hexDigit (n % 16)]

/-- Escape one character for a JSON string literal. -/
def escChar (c : Char) : String :=
  if c = '"' then "\\\"" else if c = '\\' then "\\\\"
  else if c = '\n' then "\\n" else if c = '\r' then "\\r"
  else if c = '\t' then "\\t" else if c = '\x08' then "\\b"
  else if c = '\x0c' then "\\f"
  else if c.toNat < 32 ∨ c.toNat > 126 then
    if c.toNat < 65536 then "\\u" ++ hex4 c.toNat
    else
      "\\u" ++ hex4 (55296 + (c.toNat - 65536) / 1024) ++
      "\\u" ++ hex4 (56320 + (c.toNat - 65536) % 1024)
  else String.singleton c

/-- A JSON string literal. -/
def jsonStr (s : String) : String :=
  "\"" ++ String.join (s.toList.map escChar) ++ "\""

/-- One symbol object as `json.dumps(..., indent=2)` nests it. -/
def symJson (s : Symbol) : String :=
  "    \x7b\n      \"name\": " ++ jsonStr s.name ++
  ",\n      \"type\": " ++ jsonStr s.type ++
  ",\n      \"line\": " ++ toString s.line ++ "\n    \x7d"

/-- The symbols array under two-space indentation. -/
def symsJson : List Symbol → String
  | [] => "[]"
  | l => "[\n" ++ String.intercalate (",\n") (l.map symJson) ++ "\n  ]"

/-- `json.dumps({"filePath": fp, "symbols": syms}, indent=2)`. -/
def renderMapDoc (fp : String) (syms : List Symbol) : String :=
  "\x7b\n  \"filePath\": " ++ jsonStr fp ++
  ",\n  \"symbols\": " ++ symsJson syms ++ "\n\x7d"

/-- Standard output of `generate_map(path)` over a file system mapping
paths to contents: the literal `\x7b\x7d` when the path names no file,
the indented JSON document otherwise. -/
def generateMapStdout (fs : String → Option String) (path : String) : String :=
  match fs path with
  | none => "\x7b\x7d"
  | some content => renderMapDoc path (mapSymbols content) ++ "\n"

/-- Standard output and standard error of `summarize_objc_file(path)`. -/
def summarizeOut (fs : String → Option String) (path : String) : String × String :=
  match fs path with
  | none => ("", "Error: File not found: " ++ path ++ "\n")
  | some content =>
    (joinLines (outlineHeaderLines path ++ outlineBody content), "")

/-- `main()`: exit status, standard output, standard error, for the
argument vector after the program name. -/
def runMain (fs : String → Option String) (args : List String) :
    Nat × String × String :=
  match args with
  | [] =>
    (1, "", "Usage: objc-summarizer-v2.py <file-path> OR objc-summarizer-v2.py --map <file-path>\n")
  | a :: rest =>
    if a = "--map" then
      match rest with
      | [] => (1, "", "Usage: objc-summarizer-v2.py --map <file-path>\n")
      | p :: _ => (0, generateMapStdout fs p, "")
    else
      let oe := summarizeOut fs a
      (0, oe.1, oe.2)

/-- A line on which the outline loop recognizes some block opener
(interface, implementation, category or protocol check). -/
def openerHit (line : List Char) : Bool :=
  (searchInterface (pyStripL line)).isSome || (searchImpl (pyStripL line)).isSome ||
  (searchCategory (pyStripL line)).isSome || (searchProtocol (pyStripL line)).isSome

/-- Fixture: an implementation block containing a property declaration. -/
def exImplProp : String :=
  "@implementation Foo\n@property (nonatomic) NSString *x;\n@end"

/-- Fixture: two interface openers whose line ranges share one method. -/
def exOverlap : String :=
  "@interface A\n@interface B\n- (void)m;\n@end\n@end"

/-- Fixture: one interface block with one property and no method. -/
def exIfaceProp : String :=
  "@interface Foo\n@property (nonatomic) NSString *name;\n@end"

/-- Fixture: an interface opener with no closer anywhere after it. -/
def exNoCloser : String :=
  "@interface Foo\n- (void)m;"

/-- Fixture: an implementation block containing a property and a method. -/
def exImplPropMeth : String :=
  "@implementation Bar\n@property (copy) NSString *y;\n- (void)go;\n@end"

/-- Fixture: a category-form opener line. -/
def exCategory : String :=
  "@interface Foo (Extras)\n@end"

/-- Fixture: a comment line containing a block-opener keyword. -/
def exComment : String :=
  "// @interface Foo"

/-- Fixture: an interface with a brace-delimited instance-variable block. -/
def exIvar : String :=
  "@interface Foo \x7b\nint fooBar;\n\x7d\n@end"

/-! ## Helper lemmas -/

theorem length_filterMap_eq_countP {α β : Type} (f : α → Option β) (l : List α) :
    (l.filterMap f).length = l.countP (fun a => (f a).isSome) := by
  induction l with
  | nil => simp
  | cons a t ih =>
    rw [List.filterMap_cons, List.countP_cons]
    cases h : f a <;> simp [h, ih]

theorem countP_enumFrom {α : Type} (q : α → Bool) (l : List α) (n : Nat) :
    ((List.enumFrom n l).countP fun p => q p.2) = l.countP q := by
  induction l generalizing n with
  | nil => simp
  | cons a t ih => simp [List.enumFrom, List.countP_cons, ih]

theorem isSome_outlineSecOf (ms : List Method) (ps : List PropertyDecl)
    (ls : List (List Char)) (i : Nat) (line : List Char) :
    (outlineSecOf ms ps ls i line).isSome = openerHit line := by
  rw [outlineSecOf, openerHit]
  cases h1 : searchInterface (pyStripL line) with
  | some r => obtain ⟨n1, s1, p1⟩ := r; simp
  | none =>
    cases h2 : searchImpl (pyStripL line) with
    | some n2 => simp
    | none =>
      cases h3 : searchCategory (pyStripL line) with
      | some r3 => obtain ⟨n3, c3⟩ := r3; simp
      | none => cases h4 : searchProtocol (pyStripL line) <;> simp

theorem length_insertByLine (x : Symbol) (l : List Symbol) :
    (insertByLine x l).length = l.length + 1 := by
  induction l with
  | nil => rfl
  | cons y ys ih =>
    rw [insertByLine]
    by_cases h : y.line < x.line <;> simp [h, ih]

theorem length_sortByLine (l : List Symbol) :
    (sortByLine l).length = l.length := by
  induction l with
  | nil => rfl
  | cons x xs ih =>
    rw [sortByLine, length_insertByLine, ih]
    rfl

theorem mem_insertByLine {x y : Symbol} {l : List Symbol} :
    x ∈ insertByLine y l ↔ x = y ∨ x ∈ l := by
  induction l with
  | nil => simp [insertByLine]
  | cons z zs ih =>
    rw [insertByLine]
    by_cases h : z.line < y.line
    · simp only [if_pos h, List.mem_cons, ih]
      tauto
    · simp only [if_neg h, List.mem_cons]

theorem mem_sortByLine {x : Symbol} {l : List Symbol} :
    x ∈ sortByLine l ↔ x ∈ l := by
  induction l with
  | nil => simp [sortByLine]
  | cons z zs ih => rw [sortByLine, mem_insertByLine, ih]; simp

theorem mem_methodsIn {ms : List Method} {a b : Nat} {m : Method} :
    m ∈ methodsIn ms a b ↔ m ∈ ms ∧ a < m.line ∧ m.line < b := by
  rw [methodsIn, List.mem_filter]
  simp

theorem mem_propsIn {ps : List PropertyDecl} {a b : Nat} {p : PropertyDecl} :
    p ∈ propsIn ps a b ↔ p ∈ ps ∧ a < p.line ∧ p.line < b := by
  rw [propsIn, List.mem_filter]
  simp

theorem methodsIn_self_empty (ms : List Method) (a : Nat) :
    methodsIn ms a a = [] := by
  rw [methodsIn, List.filter_eq_nil_iff]
  intro m _
  simp
  omega

theorem propsIn_self_empty (ps : List PropertyDecl) (a : Nat) :
    propsIn ps a a = [] := by
  rw [propsIn, List.filter_eq_nil_iff]
  intro p _
  simp
  omega

theorem flatMap_mem_split {α β : Type} {x : α} {l : List α} (f : α → List β)
    (hx : x ∈ l) : ∃ u v, l.flatMap f = u ++ f x ++ v := by
  obtain ⟨s, t, rfl⟩ := List.append_of_mem hx
  refine ⟨s.flatMap f, t.flatMap f, ?_⟩
  simp [List.flatMap_append]

theorem pyStripRight_cons_of_not_ws (c : Char) (t : List Char)
    (hc : pyWs c = false) : ∃ u, pyStripRight (c :: t) = c :: u := by
  rw [pyStripRight, List.reverse_cons, List.dropWhile_append]
  by_cases h : (t.reverse.dropWhile pyWs).isEmpty = true
  · rw [if_pos h]
    exact ⟨[], by simp [List.dropWhile, hc]⟩
  · rw [if_neg h]
    exact ⟨(t.reverse.dropWhile pyWs).reverse, by simp⟩

theorem secOf_interface (ms : List Method) (ps : List PropertyDecl)
    (ls : List (List Char)) (i : Nat) (line : List Char)
    (name : List Char) (sup protos : Option (List Char))
    (h : searchInterface (pyStripL line) = some (name, sup, protos)) :
    outlineSecOf ms ps ls i line =
      some ⟨i + 1, interfaceHeader name sup protos,
        (propsIn ps (i + 1) (findEnd ls i)).flatMap renderProp ++
        (methodsIn ms (i + 1) (findEnd ls i)).flatMap renderMethod⟩ := by
  rw [outlineSecOf, h]

theorem secOf_impl (ms : List Method) (ps : List PropertyDecl)
    (ls : List (List Char)) (i : Nat) (line : List Char) (name : List Char)
    (h0 : searchInterface (pyStripL line) = none)
    (h : searchImpl (pyStripL line) = some name) :
    outlineSecOf ms ps ls i line =
      some ⟨i + 1, "@implementation " ++ strOf name,
        (methodsIn ms (i + 1) (findEnd ls i)).flatMap renderMethod⟩ := by
  rw [outlineSecOf, h0, h]

theorem secOf_category (ms : List Method) (ps : List PropertyDecl)
    (ls : List (List Char)) (i : Nat) (line : List Char) (name cat : List Char)
    (h0 : searchInterface (pyStripL line) = none)
    (h1 : searchImpl (pyStripL line) = none)
    (h : searchCategory (pyStripL line) = some (name, cat)) :
    outlineSecOf ms ps ls i line = some ⟨i + 1, categoryHeader name cat, []⟩ := by
  rw [outlineSecOf, h0, h1, h]

theorem secOf_protocol (ms : List Method) (ps : List PropertyDecl)
    (ls : List (List Char)) (i : Nat) (line : List Char) (name : List Char)
    (h0 : searchInterface (pyStripL line) = none)
    (h1 : searchImpl (pyStripL line) = none)
    (h2 : searchCategory (pyStripL line) = none)
    (h : searchProtocol (pyStripL line) = some name) :
    outlineSecOf ms ps ls i line =
      some ⟨i + 1, "@protocol " ++ strOf name, []⟩ := by
  rw [outlineSecOf, h0, h1, h2, h]

/-! ## Claim theorems -/

/-- C1, counterexample: the implementation block of the fixture spans lines
1 to 3 with its located closer at line 3, and the recognized property at
line 2 satisfies strict containment, yet the property is not rendered
under the block, so the rendered-iff-contained claim fails for
properties under implementation blocks. -/
theorem claim1_counterexample :
    extract_properties exImplProp = [⟨"(nonatomic)", "NSString *x", 2⟩]
    ∧ findEnd (linesL exImplProp) 0 = 3
    ∧ sectionsOf exImplProp = [⟨1, "@implementation Foo", []⟩]
    ∧ ((1 : Nat) < 2 ∧ (2 : Nat) < 3)
    ∧ ¬ ("  @property (nonatomic)NSString *x;" ∈ outlineBody exImplProp) := by
  exact ⟨by decide, by decide, by decide, by decide, by decide⟩

/-- C1, amended: for interface blocks a method or property is rendered
under the block exactly when `startLine < line < endLine`; for
implementation blocks the same holds for methods, while the rendered
member list of an implementation block is built from the contained
methods only, so contained properties are never rendered there. -/
theorem claim1_containment (ms : List Method) (ps : List PropertyDecl)
    (ls : List (List Char)) (i : Nat) (line : List Char) :
    (∀ (a b : Nat) (m : Method), m ∈ methodsIn ms a b ↔ m ∈ ms ∧ a < m.line ∧ m.line < b)
    ∧ (∀ (a b : Nat) (p : PropertyDecl), p ∈ propsIn ps a b ↔ p ∈ ps ∧ a < p.line ∧ p.line < b)
    ∧ (∀ name sup protos, searchInterface (pyStripL line) = some (name, sup, protos) →
        outlineSecOf ms ps ls i line =
          some ⟨i + 1, interfaceHeader name sup protos,
            (propsIn ps (i + 1) (findEnd ls i)).flatMap renderProp ++
            (methodsIn ms (i + 1) (findEnd ls i)).flatMap renderMethod⟩)
    ∧ (searchInterface (pyStripL line) = none →
       ∀ name, searchImpl (pyStripL line) = some name →
        outlineSecOf ms ps ls i line =
          some ⟨i + 1, "@implementation " ++ strOf name,
            (methodsIn ms (i + 1) (findEnd ls i)).flatMap renderMethod⟩) :=
  ⟨fun _a _b _m => mem_methodsIn, fun _a _b _p => mem_propsIn,
   fun name sup protos h => secOf_interface ms ps ls i line name sup protos h,
   fun h0 name h => secOf_impl ms ps ls i line name h0 h⟩

/-- C1, witness: the amended containment theorem applied to the
implementation fixture. -/
theorem claim1_witness :
    outlineSecOf (extract_methods exImplProp) (extract_properties exImplProp)
        (linesL exImplProp) 0 ("@implementation Foo".toList) =
      some ⟨0 + 1, "@implementation " ++ strOf ("Foo".toList),
        (methodsIn (extract_methods exImplProp) (0 + 1)
          (findEnd (linesL exImplProp) 0)).flatMap renderMethod⟩ :=
  (claim1_containment (extract_methods exImplProp) (extract_properties exImplProp)
      (linesL exImplProp) 0 ("@implementation Foo".toList)).2.2.2
    (by decide) ("Foo".toList) (by decide)

/-- C2, counterexample: in the fixture both interface block ranges
(lines 1 to 4 and 2 to 4) strictly contain the method at line 3, and the
method is rendered under both blocks, refuting the at-most-one-block
assignment and the last-satisfying-block-wins policy. -/
theorem claim2_counterexample :
    extract_methods exOverlap = [⟨"-", "void", "m", 3⟩]
    ∧ findEnd (linesL exOverlap) 0 = 4
    ∧ findEnd (linesL exOverlap) 1 = 4
    ∧ ((sectionsOf exOverlap).filter fun s => "  - (void)m;" ∈ s.members).length = 2 := by
  exact ⟨by decide, by decide, by decide, by decide⟩

/-- C2, amended: a recognized method is rendered under every interface or
implementation block whose computed line range strictly contains its
line, and a recognized property under every interface block whose range
strictly contains its line (implementation blocks render no properties);
the renderer performs no exclusive assignment and no last-block-wins
selection. -/
theorem claim2_rendered_under_every_block (ms : List Method) (ps : List PropertyDecl)
    (ls : List (List Char)) (i : Nat) (line : List Char) (sec : OutSection)
    (hsec : outlineSecOf ms ps ls i line = some sec) :
    (∀ m : Method,
      (searchInterface (pyStripL line)).isSome = true
        ∨ (searchImpl (pyStripL line)).isSome = true →
      m ∈ ms → i + 1 < m.line → m.line < findEnd ls i →
      ∃ pre post, sec.members = pre ++ renderMethod m ++ post)
    ∧ (∀ p : PropertyDecl, ∀ r, searchInterface (pyStripL line) = some r →
      p ∈ ps → i + 1 < p.line → p.line < findEnd ls i →
      ∃ pre post, sec.members = pre ++ renderProp p ++ post) := by
  constructor
  · intro m hbr hm h1 h2
    have hmem : m ∈ methodsIn ms (i + 1) (findEnd ls i) := mem_methodsIn.mpr ⟨hm, h1, h2⟩
    obtain ⟨u, v, huv⟩ := flatMap_mem_split renderMethod hmem
    cases hI : searchInterface (pyStripL line) with
    | some r =>
      obtain ⟨name, sup, protos⟩ := r
      rw [secOf_interface ms ps ls i line name sup protos hI] at hsec
      injection hsec with h'
      subst h'
      refine ⟨(propsIn ps (i + 1) (findEnd ls i)).flatMap renderProp ++ u, v, ?_⟩
      simp only [huv]
      simp [List.append_assoc]
    | none =>
      cases hM : searchImpl (pyStripL line) with
      | some name =>
        rw [secOf_impl ms ps ls i line name hI hM] at hsec
        injection hsec with h'
        subst h'
        exact ⟨u, v, huv⟩
      | none =>
        rw [hI, hM] at hbr
        simp at hbr
  · intro p r hI hp h1 h2
    obtain ⟨name, sup, protos⟩ := r
    have hpmem : p ∈ propsIn ps (i + 1) (findEnd ls i) := mem_propsIn.mpr ⟨hp, h1, h2⟩
    obtain ⟨u, v, huv⟩ := flatMap_mem_split renderProp hpmem
    rw [secOf_interface ms ps ls i line name sup protos hI] at hsec
    injection hsec with h'
    subst h'
    refine ⟨u, v ++ (methodsIn ms (i + 1) (findEnd ls i)).flatMap renderMethod, ?_⟩
    simp only [huv]
    simp [List.append_assoc]

/-- C2, witness: the amended theorem's method half applied to the second
overlapping block of the two-opener fixture, and its property half
applied to the interface block of the one-property fixture. -/
theorem claim2_witness :
    (∃ pre post,
      (OutSection.members ⟨2, "@interface B : NSObject", ["  // Line: 3", "  - (void)m;"]⟩)
        = pre ++ renderMethod ⟨"-", "void", "m", 3⟩ ++ post)
    ∧ (∃ pre post,
      (OutSection.members ⟨1, "@interface Foo : NSObject",
          ["  // Line: 2", "  @property (nonatomic)NSString *name;"]⟩)
        = pre ++ renderProp ⟨"(nonatomic)", "NSString *name", 2⟩ ++ post) :=
  ⟨(claim2_rendered_under_every_block (extract_methods exOverlap)
      (extract_properties exOverlap) (linesL exOverlap) 1 ("@interface B".toList)
      ⟨2, "@interface B : NSObject", ["  // Line: 3", "  - (void)m;"]⟩ (by decide)).1
    ⟨"-", "void", "m", 3⟩ (by decide) (by decide) (by decide) (by decide),
   (claim2_rendered_under_every_block (extract_methods exIfaceProp)
      (extract_properties exIfaceProp) (linesL exIfaceProp) 0 ("@interface Foo".toList)
      ⟨1, "@interface Foo : NSObject",
        ["  // Line: 2", "  @property (nonatomic)NSString *name;"]⟩ (by decide)).2
    ⟨"(nonatomic)", "NSString *name", 2⟩ ("Foo".toList, none, none)
    (by decide) (by decide) (by decide) (by decide)⟩

/-- C3: in outline mode on a missing file the error message goes to
standard error and nothing to standard output, but `main` returns without
calling `sys.exit`, so the process exit status is 0, not the non-zero
status the claim requires. -/
theorem claim3_missing_file_exit_status :
    runMain (fun _p => none) ["missing.m"] =
      (0, "", "Error: File not found: missing.m\n") := by
  decide

/-- C4, counterexample: on a missing file, map mode exits 0 but prints the
literal two-character empty object, which is not the success-case document
shape — the document the success case would emit for that path with an
empty symbol collection is a different string, carrying a filePath
field. -/
theorem claim4_counterexample :
    runMain (fun _p => none) ["--map", "ghost.m"] = (0, "\x7b\x7d", "")
    ∧ renderMapDoc "ghost.m" [] ≠ "\x7b\x7d"
    ∧ renderMapDoc "ghost.m" [] =
        "\x7b\n  \"filePath\": \"ghost.m\",\n  \"symbols\": []\n\x7d" := by
  exact ⟨by decide, by decide, by decide⟩

/-- C4, amended: map mode on a path naming no file exits with status zero
and emits the literal empty JSON object with no fields at all. -/
theorem claim4_map_missing_empty_object (fs : String → Option String) (p : String)
    (h : fs p = none) :
    runMain fs ["--map", p] = (0, "\x7b\x7d", "") := by
  rw [runMain]
  simp [generateMapStdout, h]

/-- C4, witness: the amended theorem at a concrete missing path. -/
theorem claim4_witness :
    runMain (fun _p => none) ["--map", "ghost2.m"] = (0, "\x7b\x7d", "") :=
  claim4_map_missing_empty_object (fun _p => none) "ghost2.m" rfl

/-- C5, counterexample: the fixture has one block opener followed by one
closer, no method and one property; the map symbol list has exactly one
record, not blocks plus methods plus properties, which would be two. -/
theorem claim5_counterexample :
    (sectionsOf exIfaceProp).length = 1
    ∧ (extract_methods exIfaceProp).length = 0
    ∧ (extract_properties exIfaceProp).length = 1
    ∧ (mapSymbols exIfaceProp).length = 1
    ∧ (mapSymbols exIfaceProp).length ≠
        (sectionsOf exIfaceProp).length + (extract_methods exIfaceProp).length +
        (extract_properties exIfaceProp).length := by
  exact ⟨by decide, by decide, by decide, by decide, by decide⟩

/-- C5, amended: the outline emits exactly one block section per line on
which an opener is recognized, and the map symbol count equals the number
of interface, implementation and protocol keyword matches plus the number
of methods; properties are not counted. -/
theorem claim5_counts (content : String) :
    (sectionsOf content).length = (linesL content).countP openerHit
    ∧ (mapSymbols content).length =
        (finditerKW ("@interface".toList) content.toList).length +
        (finditerKW ("@implementation".toList) content.toList).length +
        (finditerKW ("@protocol".toList) content.toList).length +
        (extract_methods content).length := by
  constructor
  · have hdef : sectionsOf content = (linesL content).enum.filterMap
        (fun p => outlineSecOf (extract_methods content) (extract_properties content)
          (linesL content) p.1 p.2) := rfl
    rw [hdef, length_filterMap_eq_countP]
    have hfun : (fun p : Nat × List Char =>
        (outlineSecOf (extract_methods content) (extract_properties content)
          (linesL content) p.1 p.2).isSome)
        = fun p : Nat × List Char => openerHit p.2 := by
      funext p
      exact isSome_outlineSecOf _ _ _ _ _
    rw [hfun]
    have henum : (linesL content).enum = List.enumFrom 0 (linesL content) := rfl
    rw [henum, countP_enumFrom]
  · simp only [mapSymbols]
    rw [length_sortByLine]
    simp [List.length_append, List.length_map]
    omega

/-- C5, witness: the amended count theorem at the one-interface fixture. -/
theorem claim5_witness :
    (sectionsOf exIfaceProp).length = (linesL exIfaceProp).countP openerHit :=
  (claim5_counts exIfaceProp).1

/-- C6: when no line after an opener strips to the bare closer, the block
extent degenerates to the opener's own line, the contained member lists
are empty, and the section renders as header immediately followed by a
closer line and blank separator. -/
theorem claim6_degenerate (ms : List Method) (ps : List PropertyDecl)
    (ls : List (List Char)) (i : Nat) (line : List Char) (sec : OutSection)
    (hno : ∀ l ∈ ls.drop (i + 1), pyStripL l ≠ "@end".toList)
    (hsec : outlineSecOf ms ps ls i line = some sec) :
    findEnd ls i = i + 1 ∧ sec.line = i + 1 ∧ sec.members = []
    ∧ sectionLines sec = ["// Line: " ++ toString (i + 1), sec.header, "@end", ""] := by
  have he : findEnd ls i = i + 1 := by
    rw [findEnd]
    have hn : (ls.drop (i + 1)).findIdx? (fun l => pyStripL l = "@end".toList) = none := by
      rw [List.findIdx?_eq_none_iff]
      intro x hx
      simpa using hno x hx
    rw [hn]
  have hms : methodsIn ms (i + 1) (findEnd ls i) = [] := by
    rw [he]
    exact methodsIn_self_empty ms (i + 1)
  have hps : propsIn ps (i + 1) (findEnd ls i) = [] := by
    rw [he]
    exact propsIn_self_empty ps (i + 1)
  have hmem : sec.line = i + 1 ∧ sec.members = [] := by
    cases hI : searchInterface (pyStripL line) with
    | some r =>
      obtain ⟨name, sup, protos⟩ := r
      rw [secOf_interface ms ps ls i line name sup protos hI] at hsec
      injection hsec with h'
      subst h'
      simp [hms, hps]
    | none =>
      cases hM : searchImpl (pyStripL line) with
      | some name =>
        rw [secOf_impl ms ps ls i line name hI hM] at hsec
        injection hsec with h'
        subst h'
        simp [hms]
      | none =>
        cases hC : searchCategory (pyStripL line) with
        | some r =>
          obtain ⟨name, cat⟩ := r
          rw [secOf_category ms ps ls i line name cat hI hM hC] at hsec
          injection hsec with h'
          subst h'
          simp
        | none =>
          cases hP : searchProtocol (pyStripL line) with
          | some name =>
            rw [secOf_protocol ms ps ls i line name hI hM hC hP] at hsec
            injection hsec with h'
            subst h'
            simp
          | none =>
            rw [outlineSecOf, hI, hM, hC, hP] at hsec
            exact absurd hsec (by simp)
  refine ⟨he, hmem.1, hmem.2, ?_⟩
  rw [sectionLines, hmem.2]
  rw [hmem.1]
  simp

/-- C6, witness: the degenerate-block theorem at the no-closer fixture. -/
theorem claim6_witness :
    findEnd (linesL exNoCloser) 0 = 0 + 1
    ∧ (OutSection.line ⟨1, "@interface Foo : NSObject", []⟩) = 0 + 1
    ∧ (OutSection.members ⟨1, "@interface Foo : NSObject", []⟩) = []
    ∧ sectionLines ⟨1, "@interface Foo : NSObject", []⟩ =
        ["// Line: " ++ toString (0 + 1),
         OutSection.header ⟨1, "@interface Foo : NSObject", []⟩, "@end", ""] :=
  claim6_degenerate (extract_methods exNoCloser) (extract_properties exNoCloser)
    (linesL exNoCloser) 0 ("@interface Foo".toList)
    ⟨1, "@interface Foo : NSObject", []⟩ (by decide) (by decide)

/-- C7, counterexample: the implementation fixture contains a recognized
property at line 2 strictly inside the block, but the emitted section
consists of comment, header, the method lines, closer and blank — no
property lines are emitted for implementation openers. -/
theorem claim7_counterexample :
    extract_properties exImplPropMeth = [⟨"(copy)", "NSString *y", 2⟩]
    ∧ findEnd (linesL exImplPropMeth) 0 = 4
    ∧ outlineBody exImplPropMeth =
        ["// Line: 1", "@implementation Bar", "  // Line: 3", "  - (void)go;", "@end", ""]
    ∧ ¬ ("  @property (copy)NSString *y;" ∈ outlineBody exImplPropMeth) := by
  exact ⟨by decide, by decide, by decide, by decide⟩

/-- C7, amended: per recognized opener the emitted section is a
line-number comment, the reconstructed header, then members, then a
closer line and blank separator — where interface sections emit contained
properties then contained methods, implementation sections emit contained
methods only, and category-form and protocol sections emit no members. -/
theorem claim7_section_shape (ms : List Method) (ps : List PropertyDecl)
    (ls : List (List Char)) (i : Nat) (line : List Char) :
    (∀ name sup protos, searchInterface (pyStripL line) = some (name, sup, protos) →
      ∃ sec, outlineSecOf ms ps ls i line = some sec ∧
        sectionLines sec =
          ["// Line: " ++ toString (i + 1), interfaceHeader name sup protos] ++
          (propsIn ps (i + 1) (findEnd ls i)).flatMap renderProp ++
          (methodsIn ms (i + 1) (findEnd ls i)).flatMap renderMethod ++ ["@end", ""])
    ∧ (searchInterface (pyStripL line) = none →
       ∀ name, searchImpl (pyStripL line) = some name →
      ∃ sec, outlineSecOf ms ps ls i line = some sec ∧
        sectionLines sec =
          ["// Line: " ++ toString (i + 1), "@implementation " ++ strOf name] ++
          (methodsIn ms (i + 1) (findEnd ls i)).flatMap renderMethod ++ ["@end", ""])
    ∧ (searchInterface (pyStripL line) = none → searchImpl (pyStripL line) = none →
       ∀ name cat, searchCategory (pyStripL line) = some (name, cat) →
      ∃ sec, outlineSecOf ms ps ls i line = some sec ∧
        sectionLines sec = ["// Line: " ++ toString (i + 1), categoryHeader name cat, "@end", ""])
    ∧ (searchInterface (pyStripL line) = none → searchImpl (pyStripL line) = none →
       searchCategory (pyStripL line) = none →
       ∀ name, searchProtocol (pyStripL line) = some name →
      ∃ sec, outlineSecOf ms ps ls i line = some sec ∧
        sectionLines sec =
          ["// Line: " ++ toString (i + 1), "@protocol " ++ strOf name, "@end", ""]) := by
  refine ⟨?_, ?_, ?_, ?_⟩
  · intro name sup protos h
    exact ⟨_, secOf_interface ms ps ls i line name sup protos h,
      by simp [sectionLines, List.append_assoc]⟩
  · intro h0 name h
    exact ⟨_, secOf_impl ms ps ls i line name h0 h,
      by simp [sectionLines, List.append_assoc]⟩
  · intro h0 h1 name cat h
    exact ⟨_, secOf_category ms ps ls i line name cat h0 h1 h,
      by simp [sectionLines]⟩
  · intro h0 h1 h2 name h
    exact ⟨_, secOf_protocol ms ps ls i line name h0 h1 h2 h,
      by simp [sectionLines]⟩

/-- C7, witness: the implementation-section shape applied to the
implementation fixture. -/
theorem claim7_witness :
    ∃ sec, outlineSecOf (extract_methods exImplPropMeth) (extract_properties exImplPropMeth)
        (linesL exImplPropMeth) 0 ("@implementation Bar".toList) = some sec ∧
      sectionLines sec =
        ["// Line: " ++ toString (0 + 1), "@implementation " ++ strOf ("Bar".toList)] ++
        (methodsIn (extract_methods exImplPropMeth) (0 + 1)
          (findEnd (linesL exImplPropMeth) 0)).flatMap renderMethod ++ ["@end", ""] :=
  (claim7_section_shape (extract_methods exImplPropMeth) (extract_properties exImplPropMeth)
      (linesL exImplPropMeth) 0 ("@implementation Bar".toList)).2.1
    (by decide) ("Bar".toList) (by decide)

/-- C8: the category pattern itself matches the category-form opener line
and would render the category header, but the interface check fires first
and ends the iteration, so the line is rendered as a plain interface with
a defaulted supertype and the category branch never runs. -/
theorem claim8_category_branch_shadowed :
    searchCategory (pyStripL ("@interface Foo (Extras)".toList))
      = some ("Foo".toList, "Extras".toList)
    ∧ categoryHeader ("Foo".toList) ("Extras".toList) = "@interface Foo (Category: Extras)"
    ∧ sectionsOf exCategory = [⟨1, "@interface Foo : NSObject", []⟩]
    ∧ ¬ ("@interface Foo (Category: Extras)" ∈ outlineBody exCategory) := by
  exact ⟨by decide, by decide, by decide, by decide⟩

/-- C9, counterexample: a line whose trimmed form begins with the comment
marker still produces a block hit in both output modes — a full outline
section and a map symbol. -/
theorem claim9_counterexample :
    ("//".toList.isPrefixOf (pyStripL exComment.toList)) = true
    ∧ sectionsOf exComment = [⟨1, "@interface Foo : NSObject", []⟩]
    ∧ mapSymbols exComment = [⟨"Foo", "interface", 1⟩] := by
  exact ⟨by decide, by decide, by decide⟩

/-- C9, amended: a line whose trimmed form begins with the comment or
directive marker produces no method hit (explicit skip) and no property
hit (the property pattern requires the first non-blank character to open
the keyword); block-opener recognition performs no such skip. -/
theorem claim9_method_property_skip (n : Nat) (cs : List Char)
    (h : "//".toList.isPrefixOf (pyStripL cs) = true
       ∨ "#".toList.isPrefixOf (pyStripL cs) = true) :
    methodOfLine n cs = none ∧ propertyOfLine n cs = none := by
  constructor
  · rcases h with h | h
    · have h2 : ['/', '/'] <+: pyStripL cs := List.isPrefixOf_iff_prefix.mp h
      simp [methodOfLine, h2]
    · have h2 : ['#'] <+: pyStripL cs := List.isPrefixOf_iff_prefix.mp h
      simp [methodOfLine, h2]
  · rw [propertyOfLine]
    have hfalse : ("@property".toList.isPrefixOf (cs.dropWhile pyWs)) = false := by
      cases hpre : ("@property".toList.isPrefixOf (cs.dropWhile pyWs)) with
      | false => rfl
      | true =>
        exfalso
        obtain ⟨t, ht⟩ := List.isPrefixOf_iff_prefix.mp hpre
        have hd : cs.dropWhile pyWs = '@' :: (("property".toList) ++ t) := by
          rw [← ht]
          rfl
        obtain ⟨u, hu⟩ := pyStripRight_cons_of_not_ws '@' (("property".toList) ++ t) (by decide)
        have hs : pyStripL cs = '@' :: u := by
          rw [pyStripL, hd, hu]
        rcases h with h | h
        · rw [hs] at h
          obtain ⟨w, hw⟩ := List.isPrefixOf_iff_prefix.mp h
          have hw2 : '/' :: ('/' :: w) = '@' :: u := hw
          injection hw2 with hc _
          exact absurd hc (by decide)
        · rw [hs] at h
          obtain ⟨w, hw⟩ := List.isPrefixOf_iff_prefix.mp h
          have hw2 : '#' :: w = '@' :: u := hw
          injection hw2 with hc _
          exact absurd hc (by decide)
    rw [matchProperty, hfalse]
    simp

/-- C9, witness: the skip theorem at a commented-out method line. -/
theorem claim9_witness :
    methodOfLine 1 ("// - (void)hidden;".toList) = none
    ∧ propertyOfLine 1 ("// - (void)hidden;".toList) = none :=
  claim9_method_property_skip 1 ("// - (void)hidden;".toList) (Or.inl (by decide))

/-- C10: the map emits only interface, implementation, protocol and
method records — never an instance-field record — and on a fixture where
the ivar extractor does find a field, neither the outline nor the map
mentions it, the extractor being invoked by no output path. -/
theorem claim10_no_field_records :
    (∀ (content : String) (s : Symbol), s ∈ mapSymbols content →
        s.type = "interface" ∨ s.type = "implementation"
        ∨ s.type = "protocol" ∨ s.type = "method")
    ∧ extract_ivars exIvar = [⟨"int", "fooBar"⟩]
    ∧ outlineBody exIvar = ["// Line: 1", "@interface Foo : NSObject", "@end", ""]
    ∧ mapSymbols exIvar = [⟨"Foo", "interface", 1⟩] := by
  refine ⟨?_, by decide, by decide, by decide⟩
  intro content s hs
  simp only [mapSymbols] at hs
  rw [mem_sortByLine] at hs
  simp only [List.mem_append, List.mem_map] at hs
  rcases hs with (((⟨pn, hpn, rfl⟩ | ⟨pn, hpn, rfl⟩) | ⟨pn, hpn, rfl⟩) | ⟨mm, hmm, rfl⟩)
  · exact Or.inl rfl
  · exact Or.inr (Or.inl rfl)
  · exact Or.inr (Or.inr (Or.inl rfl))
  · exact Or.inr (Or.inr (Or.inr rfl))

/-- C10, witness: the symbol-kind theorem applied to the ivar fixture's
only map record. -/
theorem claim10_witness :
    (Symbol.type ⟨"Foo", "interface", 1⟩) = "interface"
    ∨ (Symbol.type ⟨"Foo", "interface", 1⟩) = "implementation"
    ∨ (Symbol.type ⟨"Foo", "interface", 1⟩) = "protocol"
    ∨ (Symbol.type ⟨"Foo", "interface", 1⟩) = "method" :=
  claim10_no_field_records.1 exIvar ⟨"Foo", "interface", 1⟩ (by decide)

end SyntaxBridge

